import Mathlib

/-!
Verification development for the mcp-federation repository.

The repository edits an externally-owned JSON registry document
(`claude_desktop_config.json`) whose top-level key `mcpServers` maps server
names to entry records `{command, args, env, cwd}`.  Several installer
versions (`install.py` v3.3, `install_v3.0.py`, `install_v3.1_backup.py`,
`FEDERATED-INSTALLER-UNIFIED-VERBOSE.py`) merge a catalog of desired entries
into that registry, record a provenance manifest
(`installed_by_us` / `already_existed`), and two uninstallers
(`uninstall.py`, `mcp-servers/workspace/uninstaller-clean.py`) remove entries
again.

Python `dict`s are embedded as association lists `List (String × α)` with
Python's semantics: lookup returns the first binding, assignment replaces an
existing binding in place or appends a new one at the end (insertion order),
and `del` removes the binding.  Registry entry values are embedded as the
`Entry` structure of the document format (`command`, `args`, `env`, `cwd`);
unrelated top-level keys of the document are carried as an opaque
string-valued association list and are never touched by any of the modelled
functions.  Machine-dependent strings (home directory, npx path, cloned
repository paths) and the run-time outcomes of external actions (subprocess
exit status, git clone success, backup and save success) are passed as
parameters.
-/

namespace MCPFed

/-- One registry entry: the execution-parameter record
`{command, args, env, cwd}` of the document format. -/
structure Entry where
  command : String
  args : List String
  env : List (String × String)
  cwd : Option String
deriving DecidableEq, Repr

/-- The `mcpServers` mapping: server name to entry, in insertion order. -/
abbrev Registry := List (String × Entry)

/-- The externally-owned document.  `mcpServers = none` models a JSON object
without the `mcpServers` key; `extra` carries the unrelated top-level keys
(opaque payloads) that every modelled function passes through untouched. -/
structure Document where
  mcpServers : Option Registry
  extra : List (String × String)
deriving DecidableEq, Repr

/-- The provenance manifest fields used by `install_v3.1_backup.py` and
`uninstall.py` (`installed_by_us`, `already_existed`). -/
structure Manifest where
  installed_by_us : List String
  already_existed : List String
deriving DecidableEq, Repr

/-- The manifest fields used by `uninstaller-clean.py`
(`newly_installed_mcps`, `pre_existing_mcps`). -/
structure CleanManifest where
  newly_installed_mcps : List String
  pre_existing_mcps : List String
deriving DecidableEq, Repr

/-- State of the registry file on disk: missing, present but not parseable
as JSON, or present with parsed content `d`. -/
inductive FileState where
  | absent
  | malformed
  | valid (d : Document)
deriving DecidableEq, Repr

/-- Side effects of a run that the claims talk about: the timestamped backup
snapshot, the atomic-or-not save of the registry document, and the manifest
write (with the two provenance lists it records). -/
inductive RunOp where
  | backup
  | save (d : Document)
  | manifestWrite (already installed : List String)
deriving DecidableEq, Repr

/-- File-system operations performed by a `save` implementation. -/
inductive FsOp where
  | mkdirp (path : String)
  | writeFile (path : String) (content : Document)
  | renameFile (src target : String)
deriving DecidableEq, Repr

/-! ## Python dict primitives on association lists -/

/-- Python `d[k]` / `d.get(k)`: first binding wins (keys are unique in a real
dict, so this is exact). -/
def dictGet {α : Type} : List (String × α) → String → Option α
  | [], _ => none
  | (k, v) :: rest, key => if k = key then some v else dictGet rest key

/-- Python `k in d`. -/
def dictContains {α : Type} (d : List (String × α)) (k : String) : Bool :=
  (dictGet d k).isSome

/-- Python `d[k] = v`: replace the existing binding in place, else append
(insertion order). -/
def dictSet {α : Type} : List (String × α) → String → α → List (String × α)
  | [], key, v => [(key, v)]
  | (k, w) :: rest, key, v =>
      if k = key then (k, v) :: rest else (k, w) :: dictSet rest key v

/-- Python `del d[k]`: drop the binding of `k`. -/
def dictDel {α : Type} : List (String × α) → String → List (String × α)
  | [], _ => []
  | (k, w) :: rest, key =>
      if k = key then dictDel rest key else (k, w) :: dictDel rest key

/-- Python `list(d.keys())`. -/
def dictKeys {α : Type} (d : List (String × α)) : List String :=
  d.map (·.1)

/-! ## MergeEngine: `merge_configs` of `install_v3.0.py` and
`install_v3.1_backup.py`

Both functions receive `existing_config` (`None` when the file was absent or
unreadable), start from `{'mcpServers': {}}` when it is `None`, otherwise
copy it and insert an empty `mcpServers` mapping when that key is missing,
then loop over `self.MCP_CONFIGS.items()`, threading the instance state
`self.installed_by_us` (empty at the start of a run).  The catalog
`MCP_CONFIGS` is built at run time (it contains machine-dependent paths), so
it is a parameter here.  Only the `mcpServers` mapping and the
`installed_by_us` list change in the loop, so the loop is embedded as a fold
over `(Registry × List String)`. -/

/-- `self.PYTHON_MCPS.keys()` of `install_v3.1_backup.py` (`__init__`). -/
def PYTHON_MCPS : List String :=
  ["desktop-commander", "expert-role-prompt", "converse-enhanced",
   "kimi-k2-code-context", "kimi-k2-resilient", "rag-context"]

/-- Loop of `MCPInstaller.merge_configs` in `install_v3.0.py`
(lines 563-581): add the entry and record the name in `installed_by_us`
when absent, otherwise skip. -/
def mergeItems30 (catalog : List (String × Entry)) (acc : Registry × List String) :
    Registry × List String :=
  catalog.foldl
    (fun acc nc =>
      if ¬ dictContains acc.1 nc.1 then
        (dictSet acc.1 nc.1 nc.2, acc.2 ++ [nc.1])
      else
        acc)
    acc

/-- `MCPInstaller.merge_configs` of `install_v3.0.py`.  Returns the merged
document and the `installed_by_us` list accumulated by the loop. -/
def merge_configs30 (catalog : List (String × Entry)) (existing : Option Document) :
    Document × List String :=
  let config : Document :=
    match existing with
    | none => { mcpServers := some [], extra := [] }
    | some c => { c with mcpServers := some (c.mcpServers.getD []) }
  let r := mergeItems30 catalog (config.mcpServers.getD [], [])
  ({ config with mcpServers := some r.1 }, r.2)

/-- Loop of `MCPInstaller.merge_configs` in `install_v3.1_backup.py`
(lines 676-701): absent names are added and recorded; a present name in
`self.PYTHON_MCPS` is overwritten ("Python MCP fix") and also recorded in
`installed_by_us` (guarded by `if name not in self.installed_by_us`); other
present names are skipped. -/
def mergeItems31 (catalog : List (String × Entry)) (acc : Registry × List String) :
    Registry × List String :=
  catalog.foldl
    (fun acc nc =>
      if ¬ dictContains acc.1 nc.1 then
        (dictSet acc.1 nc.1 nc.2, acc.2 ++ [nc.1])
      else if nc.1 ∈ PYTHON_MCPS then
        (dictSet acc.1 nc.1 nc.2,
         if nc.1 ∈ acc.2 then acc.2 else acc.2 ++ [nc.1])
      else
        acc)
    acc

/-- `MCPInstaller.merge_configs` of `install_v3.1_backup.py`. -/
def merge_configs31 (catalog : List (String × Entry)) (existing : Option Document) :
    Document × List String :=
  let config : Document :=
    match existing with
    | none => { mcpServers := some [], extra := [] }
    | some c => { c with mcpServers := some (c.mcpServers.getD []) }
  let r := mergeItems31 catalog (config.mcpServers.getD [], [])
  ({ config with mcpServers := some r.1 }, r.2)

/-- `MCPInstaller.read_existing_config` of `install_v3.1_backup.py`
(lines 632-652): `None` when the file is absent, and — because the
`json.load` exception is caught — also `None` when the file is malformed.
The second component is `self.already_existed`, set to the existing
`mcpServers` keys when that key is present and left at its initial `[]`
otherwise. -/
def read_existing_config31 : FileState → Option Document × List String
  | .absent => (none, [])
  | .malformed => (none, [])
  | .valid d =>
      (some d,
       match d.mcpServers with
       | some srv => dictKeys srv
       | none => [])

/-- Python truthiness of the loaded config, as tested by
`if existing_config:` at line 797 of `install_v3.1_backup.py`: false for
`None` and also for the empty JSON object `{}` (a document with no keys at
all). -/
def docTruthy : Option Document → Bool
  | none => false
  | some d => d.mcpServers.isSome || !d.extra.isEmpty

/-- `MCPInstaller.run` of `install_v3.1_backup.py` (lines 777-850), from the
prerequisite check on: read the existing config, back it up when the loaded
config is truthy (`if existing_config:` — abort on backup failure), merge,
save (abort on save failure), then write the manifest with
`already_existed` and `installed_by_us` (`save_manifest` failure is
non-fatal and not modelled).  Returns the exit code, the final registry
file state, and the effects performed. -/
def run31 (prereqOk backupOk saveOk : Bool) (catalog : List (String × Entry))
    (fs : FileState) : Nat × FileState × List RunOp :=
  if ¬ prereqOk then (1, fs, [])
  else
    let lr := read_existing_config31 fs
    if docTruthy lr.1 = true ∧ ¬ backupOk then (1, fs, [])
    else
      let backupOps : List RunOp := if docTruthy lr.1 = true then [RunOp.backup] else []
      let m := merge_configs31 catalog lr.1
      if ¬ saveOk then (1, fs, backupOps)
      else
        (0, FileState.valid m.1,
         backupOps ++ [RunOp.save m.1, RunOp.manifestWrite lr.2 m.2])

/-! ## `install.py` (v3.3) -/

/-- `MCP_NPX_PACKAGES` of `install.py`. -/
def MCP_NPX_PACKAGES : List (String × String) :=
  [("filesystem", "@modelcontextprotocol/server-filesystem"),
   ("memory", "@modelcontextprotocol/server-memory"),
   ("sequential-thinking", "@modelcontextprotocol/server-sequential-thinking"),
   ("github-manager", "@modelcontextprotocol/server-github"),
   ("sqlite", "mcp-sqlite"),
   ("playwright", "@playwright/mcp@0.0.37"),
   ("git-ops", "@cyanheads/git-mcp-server"),
   ("desktop-commander", "@wonderwhy-er/desktop-commander@latest"),
   ("web-search", "@modelcontextprotocol/server-brave-search"),
   ("perplexity", "server-perplexity-ask")]

/-- `MCPFederationInstaller.configure_npx_mcp` of `install.py`
(lines 185-216): build the npx entry (with the per-name special cases) and
assign `config["mcpServers"][name] = mcp_config` unconditionally.
`npxCmd`, `home` and `mcpBaseDir` are the machine-dependent strings
`self.get_npx_cmd()`, `str(self.home)` and `str(self.mcp_base_dir)`. -/
def configure_npx_mcp (npxCmd home mcpBaseDir : String) (name package : String)
    (config : Document) : Document :=
  let base : Entry :=
    { command := npxCmd, args := ["-y", package],
      env := [("NODE_NO_WARNINGS", "1")], cwd := none }
  let e :=
    if name = "filesystem" then
      { base with args := base.args ++ [home] }
    else if name = "github-manager" then
      { base with env := dictSet base.env "GITHUB_PERSONAL_ACCESS_TOKEN" "YOUR_GITHUB_TOKEN" }
    else if name = "sqlite" then
      { base with args := base.args ++ [mcpBaseDir ++ "/databases/dev.db"] }
    else if name = "playwright" then
      { base with args := base.args ++ ["--browser", "chromium"] }
    else if name = "web-search" then
      { base with env := dictSet base.env "BRAVE_API_KEY" "YOUR_BRAVE_KEY" }
    else if name = "git-ops" then
      { base with env := dictSet base.env "GIT_REPO_PATH" (home ++ "/mcp-project") }
    else if name = "perplexity" then
      { base with env := dictSet base.env "PERPLEXITY_API_KEY" "YOUR_PERPLEXITY_KEY" }
    else base
  { config with mcpServers := some (dictSet (config.mcpServers.getD []) name e) }

/-- Config loading of `MCPFederationInstaller.install_all_mcps`
(`install.py` lines 420-429): an absent file yields `{"mcpServers": {}}`, a
loaded document gets an empty `mcpServers` mapping inserted when the key is
missing, and a malformed file makes the uncaught `json.load` exception abort
the whole run (`none`). -/
def installEnsure : FileState → Option Document
  | .absent => some { mcpServers := some [], extra := [] }
  | .malformed => none
  | .valid d => some { d with mcpServers := some (d.mcpServers.getD []) }

/-- `MCPFederationInstaller.install_all_mcps` of `install.py`
(lines 416-452): load/create the config, configure every npx package, assign
the locally-built node/python entries (whose values are machine-dependent,
hence the `localEntries` parameter), and save — with no backup step
anywhere in this installer.  Returns the saved document and the effects, or
`none` when the uncaught parse exception aborts the run. -/
def install_all_mcps33 (npxCmd home mcpBaseDir : String)
    (npxPackages : List (String × String)) (localEntries : List (String × Entry))
    (fs : FileState) : Option (Document × List RunOp) :=
  match installEnsure fs with
  | none => none
  | some config0 =>
      let config1 := npxPackages.foldl
        (fun c p => configure_npx_mcp npxCmd home mcpBaseDir p.1 p.2 c) config0
      let config2 := localEntries.foldl
        (fun c p =>
          { c with mcpServers := some (dictSet (c.mcpServers.getD []) p.1 p.2) })
        config1
      some (config2, [RunOp.save config2])

/-! ## ConfigStore: `save_config` of `install_v3.0.py` (lines 583-598)

`save_config` creates the config directory and then writes the serialized
document straight into the registry file with `open(self.config_path, 'w')`
followed by `json.dump` — the same direct-write pattern used by `install.py`
(lines 449-452) and `uninstall.py` (lines 141-143). -/

/-- The file-system operations `save_config` performs, in order. -/
def save_config_ops (configDir configPath : String) (config : Document) :
    List FsOp :=
  [FsOp.mkdirp configDir, FsOp.writeFile configPath config]

/-- Modelled from the spec: "save(Document) writes atomically (write to temp
location, then rename)".  An op sequence saves `target` atomically when the
document is written to some other path which is then renamed over `target`,
and `target` itself is never written directly. -/
def isAtomicSave (ops : List FsOp) (target : String) : Prop :=
  ∃ tmp, tmp ≠ target ∧ FsOp.renameFile tmp target ∈ ops ∧
    ∀ c : Document, FsOp.writeFile target c ∉ ops

/-! ## ActionRunner: acquisition actions

`FederatedUnifiedInstaller.install_npm_mcp`
(`FEDERATED-INSTALLER-UNIFIED-VERBOSE.py` lines 343-384) checks
`npm list -g`, and if the package is not present runs `npm install -g`
exactly once; `MCPInstaller.install_python_mcp` (`install_v3.1_backup.py`
lines 501-544) clones the repository exactly once when the target directory
does not exist, then installs dependencies.  Neither contains a loop or a
`time.sleep` call.  Each model returns (success, number of acquisition
attempts performed, seconds slept between attempts); `outcome i` is the
success of what would be the `i`-th attempt of the external action. -/

/-- `FederatedUnifiedInstaller.install_npm_mcp`. -/
def install_npm_mcp (alreadyInstalled : Bool) (outcome : Nat → Bool) :
    Bool × Nat × List Nat :=
  if alreadyInstalled then (true, 0, [])
  else (outcome 0, 1, [])

/-- `MCPInstaller.install_python_mcp` of `install_v3.1_backup.py`:
`cloneOutcome 0` is the success of the single `git clone`, `depsOk` the
result of `install_python_dependencies`. -/
def install_python_mcp31 (alreadyCloned : Bool) (cloneOutcome : Nat → Bool)
    (depsOk : Bool) : Bool × Nat × List Nat :=
  if alreadyCloned then (depsOk, 0, [])
  else if cloneOutcome 0 then (depsOk, 1, [])
  else (false, 1, [])

/-- Modelled from the spec (§4.5 ActionRunner): the retry loop that performs
up to `fuel` attempts, sleeping `base * 2 ^ attempt` seconds between
consecutive attempts; `i` is the index of the next attempt. -/
def retrySpecLoop (base : Nat) (outcome : Nat → Bool) :
    Nat → Nat → List Nat → Bool × Nat × List Nat
  | i, 0, sleeps => (false, i, sleeps)
  | i, fuel + 1, sleeps =>
      if outcome i then (true, i + 1, sleeps)
      else if fuel = 0 then (false, i + 1, sleeps)
      else retrySpecLoop base outcome (i + 1) fuel (sleeps ++ [base * 2 ^ i])

/-- Modelled from the spec: `perform` with `maxAttempts` attempts and
exponential backoff, returning (success, attempts made, sleeps). -/
def retrySpec (maxAttempts base : Nat) (outcome : Nat → Bool) :
    Bool × Nat × List Nat :=
  retrySpecLoop base outcome 0 maxAttempts []

/-! ## `FederatedUnifiedInstaller.install` orchestration
(`FEDERATED-INSTALLER-UNIFIED-VERBOSE.py` lines 493-542 and `main`
lines 583-597) -/

/-- The per-entry loop (lines 522-534): every matrix entry is processed;
successes go to `installed_mcps`, failures to `failed_mcps`, and a failure
never stops the loop.  `outcome name` is the success of that entry's
acquisition action. -/
def installLoop (outcome : String → Bool) (matrix : List (String × Entry)) :
    List String × List String :=
  matrix.foldl
    (fun acc p =>
      if outcome p.1 then (acc.1 ++ [p.1], acc.2) else (acc.1, acc.2 ++ [p.1]))
    ([], [])

/-- The loop of `write_configuration` (lines 470-478): for every name in
`installed_mcps`, look it up in the source matrix and assign its config. -/
def writeCfgFold (matrix : List (String × Entry)) (installed : List String)
    (c : Document) : Document :=
  installed.foldl
    (fun c name =>
      match dictGet matrix name with
      | some e => { c with mcpServers := some (dictSet (c.mcpServers.getD []) name e) }
      | none => c)
    c

/-- `FederatedUnifiedInstaller.write_configuration` (lines 447-491): load
the existing config (an exception — e.g. a malformed file — is caught and
the function returns `False` without writing, modelled as `none`), ensure
the `mcpServers` key, and fold the installed entries in. -/
def write_configuration (matrix : List (String × Entry)) (installed : List String)
    (fs : FileState) : Option Document :=
  match fs with
  | .malformed => none
  | .absent => some (writeCfgFold matrix installed { mcpServers := some [], extra := [] })
  | .valid d =>
      some (writeCfgFold matrix installed { d with mcpServers := some (d.mcpServers.getD []) })

/-- `FederatedUnifiedInstaller.install`: prerequisite and location checks,
the per-entry loop, the config write (its failure is not checked), and the
return value `len(self.failed_mcps) == 0`.  Returns
(success, final registry file state, installed, failed). -/
def installFed (prereqOk locationOk : Bool) (outcome : String → Bool)
    (matrix : List (String × Entry)) (fs : FileState) :
    Bool × FileState × List String × List String :=
  if ¬ prereqOk then (false, fs, [], [])
  else if ¬ locationOk then (false, fs, [], [])
  else
    let r := installLoop outcome matrix
    let fs' :=
      match write_configuration matrix r.1 fs with
      | some d => FileState.valid d
      | none => fs
    (r.2.isEmpty, fs', r.1, r.2)

/-- `main` of `FEDERATED-INSTALLER-UNIFIED-VERBOSE.py`:
`sys.exit(0 if success else 1)`. -/
def mainFedExit (prereqOk locationOk : Bool) (outcome : String → Bool)
    (matrix : List (String × Entry)) (fs : FileState) : Nat :=
  if (installFed prereqOk locationOk outcome matrix fs).1 then 0 else 1

/-! ## Uninstallers -/

/-- The hardcoded force-mode list of `uninstall.py` (lines 119-125). -/
def FORCE_MCPS : List String :=
  ["filesystem", "memory", "sequential-thinking", "github-manager",
   "sqlite", "playwright", "web-search", "git-ops",
   "desktop-commander", "perplexity", "expert-role-prompt",
   "converse-enhanced", "kimi-k2-code-context",
   "kimi-k2-resilient", "rag-context"]

/-- The loop of `remove_our_mcps` / `remove_federation_mcps`: for each name
to remove, `del` it from the registry when present. -/
def removeAll (names : List String) (srv : Registry) : Registry :=
  names.foldl (fun s n => if dictContains s n then dictDel s n else s) srv

/-- The same loop, additionally tracking the `removed` list
(`uninstaller-clean.py` saves only when it is nonempty). -/
def removeAllTrack (names : List String) (srv : Registry) :
    Registry × List String :=
  names.foldl
    (fun acc n =>
      if dictContains acc.1 n then (dictDel acc.1 n, acc.2 ++ [n]) else acc)
    (srv, [])

/-- `SafeMCPUninstaller.remove_our_mcps` of `uninstall.py` (lines 97-153):
no config file — nothing to do; no `mcpServers` key — nothing to do and
nothing saved; with a manifest, remove `installed_by_us`; without one,
remove the hardcoded list only under `--force`, else return `False`.
Returns (success, final file content, effects). -/
def remove_our_mcps (manifest : Option Manifest) (force : Bool)
    (file : Option Document) : Bool × Option Document × List RunOp :=
  match file with
  | none => (true, none, [])
  | some config =>
      match config.mcpServers with
      | none => (true, some config, [])
      | some srv =>
          match manifest with
          | some m =>
              let config' := { config with mcpServers := some (removeAll m.installed_by_us srv) }
              (true, some config', [RunOp.save config'])
          | none =>
              if force then
                let config' := { config with mcpServers := some (removeAll FORCE_MCPS srv) }
                (true, some config', [RunOp.save config'])
              else (false, some config, [])

/-- `SafeMCPUninstaller.run` of `uninstall.py` (lines 175-238): load the
manifest; with neither manifest nor `--force`, refuse with exit 1 before
touching anything; after user confirmation, back up the config (abort with
exit 1 on backup failure; no backup is attempted when no config file
exists), then remove.  Returns (exit code, final file content, effects). -/
def uninstallRun (manifest : Option Manifest) (force confirm backupOk : Bool)
    (file : Option Document) : Nat × Option Document × List RunOp :=
  if manifest.isNone ∧ ¬ force then (1, file, [])
  else if ¬ confirm then (0, file, [])
  else if file.isSome ∧ ¬ backupOk then (1, file, [])
  else
    let backupOps : List RunOp := if file.isSome then [RunOp.backup] else []
    let r := remove_our_mcps manifest force file
    if ¬ r.1 then (1, r.2.1, backupOps ++ r.2.2)
    else (0, r.2.1, backupOps ++ r.2.2)

/-- `self.fallback_federation_mcps` of `uninstaller-clean.py`. -/
def fallback_federation_mcps : List String :=
  ["sequential-thinking", "memory", "filesystem", "sqlite",
   "github-manager", "web-search", "playwright", "git-ops",
   "desktop-commander", "perplexity", "expert-role-prompt",
   "converse", "rag-context", "kimi-k2-code-context", "kimi-k2-resilient"]

/-- `MCPUninstaller.remove_federation_mcps` of `uninstaller-clean.py`
(lines 95-185): with a manifest remove `newly_installed_mcps`; with no
manifest fall back to removing `fallback_federation_mcps` — with no force
flag of any kind; save only when something was removed. -/
def remove_federation_mcps (manifest : Option CleanManifest)
    (file : Option Document) : Bool × Option Document × List RunOp :=
  match file with
  | none => (false, none, [])
  | some config =>
      match config.mcpServers with
      | none => (false, some config, [])
      | some srv =>
          let toRemove :=
            match manifest with
            | some m => m.newly_installed_mcps
            | none => fallback_federation_mcps
          let r := removeAllTrack toRemove srv
          if r.2.isEmpty then (true, some config, [])
          else
            let config' := { config with mcpServers := some r.1 }
            (true, some config', [RunOp.save config'])

/-- The provenance manifest `install_v3.1_backup.py` produces in one run
(`read_existing_config` and then `merge_configs`; `save_manifest`
lines 720-744 writes exactly these two lists). -/
def producedManifest31 (catalog : List (String × Entry)) (fs : FileState) :
    Manifest :=
  let lr := read_existing_config31 fs
  let m := merge_configs31 catalog lr.1
  { installed_by_us := m.2, already_existed := lr.2 }

/-! ## Statements of the claims under test (quantified forms used by the
counterexamples) -/

/-- Claim C1 as stated: every merge (all three cited implementations) keeps
the exact prior value of every entry name present in the existing document. -/
def claimC1Statement : Prop :=
  (∀ (catalog : List (String × Entry)) (d : Document) (k : String) (v : Entry),
    dictGet (d.mcpServers.getD []) k = some v →
    dictGet ((merge_configs30 catalog (some d)).1.mcpServers.getD []) k = some v) ∧
  (∀ (catalog : List (String × Entry)) (d : Document) (k : String) (v : Entry),
    dictGet (d.mcpServers.getD []) k = some v →
    dictGet ((merge_configs31 catalog (some d)).1.mcpServers.getD []) k = some v) ∧
  (∀ (npxCmd home mcpBaseDir name package : String) (d : Document) (k : String) (v : Entry),
    dictGet (d.mcpServers.getD []) k = some v →
    dictGet ((configure_npx_mcp npxCmd home mcpBaseDir name package d).mcpServers.getD []) k
      = some v)

/-- Claim C2 as stated: manifest-driven uninstall removes exactly
`installed_by_us ∩ keys(R)` and leaves every `already_existed` key with its
value unchanged. -/
def claimC2Statement : Prop :=
  ∀ (m : Manifest) (srv : Registry) (k : String),
    (dictGet (removeAll m.installed_by_us srv) k =
      if k ∈ m.installed_by_us then none else dictGet srv k) ∧
    (k ∈ m.already_existed →
      dictGet (removeAll m.installed_by_us srv) k = dictGet srv k)

/-- Claim C3 as stated: every produced manifest has disjoint
`already_existed` and `installed_by_us` lists. -/
def claimC3Statement : Prop :=
  ∀ (catalog : List (String × Entry)) (fs : FileState) (k : String),
    k ∈ (producedManifest31 catalog fs).already_existed →
    k ∉ (producedManifest31 catalog fs).installed_by_us

/-- Claim C4 as stated: with no manifest and no force override, no uninstall
run removes any registry entry, and the hardcoded fallback set is only used
under force. -/
def claimC4Statement : Prop :=
  (∀ (force confirm backupOk : Bool) (file : Option Document),
    force = false →
    uninstallRun none force confirm backupOk file = (1, file, [])) ∧
  (∀ (file : Option Document),
    (remove_federation_mcps none file).2.1 = file)

/-- Claim C6 as stated: the acquisition runner behaves as the up-to-3-attempt
exponential-backoff loop for some base delay. -/
def claimC6Statement : Prop :=
  ∃ base : Nat, ∀ outcome : Nat → Bool,
    install_npm_mcp false outcome = retrySpec 3 base outcome

/-- Claim C7 as stated: for every install run in which at least one entry's
action fails, the persisted registry contains every successful entry with
its catalog value (alongside the exclusion of failed entries and the
non-zero exit code). -/
def claimC7Statement : Prop :=
  ∀ (outcome : String → Bool) (matrix : List (String × Entry)) (fs : FileState)
    (k : String) (e : Entry),
    dictGet matrix k = some e → outcome k = true →
    (∃ f, f ∈ dictKeys matrix ∧ outcome f = false) →
    ∃ d', (installFed true true outcome matrix fs).2.1 = FileState.valid d' ∧
      dictGet (d'.mcpServers.getD []) k = some e

/-- Claim C8 as stated: every completed install run that changes the
registry document performed a backup first (instantiated at `install.py`,
which the claim cites). -/
def claimC8Statement : Prop :=
  ∀ (npxCmd home mcpBaseDir : String) (npxPackages : List (String × String))
    (localEntries : List (String × Entry)) (fs : FileState)
    (d : Document) (ops : List RunOp),
    install_all_mcps33 npxCmd home mcpBaseDir npxPackages localEntries fs
      = some (d, ops) →
    fs ≠ FileState.valid d →
    RunOp.backup ∈ ops

/-- Claim C9 as stated: every `save_config` is an atomic
temp-write-then-rename. -/
def claimC9Statement : Prop :=
  ∀ (configDir configPath : String) (d : Document),
    isAtomicSave (save_config_ops configDir configPath d) configPath

/-! ## Concrete inputs used by the counterexamples and witnesses -/

/-- A foreign entry value, used as the prior value of an existing entry. -/
def eOld : Entry :=
  { command := "old-command", args := ["old-arg"], env := [], cwd := none }

/-- A catalog entry value distinct from `eOld`. -/
def eNew : Entry :=
  { command := "python", args := ["server.py"],
    env := [("PYTHONUNBUFFERED", "1")], cwd := some "/home/user/mcp-servers/converse-enhanced" }

/-- An existing document whose registry already has an entry named
`converse-enhanced` (a Python-MCP name) with a foreign value. -/
def docConverse : Document :=
  { mcpServers := some [("converse-enhanced", eOld)], extra := [("theme", "dark")] }

/-- A one-entry catalog for that same name. -/
def catalogConverse : List (String × Entry) := [("converse-enhanced", eNew)]

/-- A document whose registry has a foreign entry named `memory`. -/
def docMemory : Document :=
  { mcpServers := some [("memory", eOld)], extra := [] }

/-- A document with an empty registry. -/
def docEmpty : Document :=
  { mcpServers := some [], extra := [] }

/-- The empty JSON object `{}` as a document: no `mcpServers` key, no other
keys.  Falsy under Python truthiness. -/
def docBraces : Document :=
  { mcpServers := none, extra := [] }

/-- A document whose registry has one foreign entry whose name is not a
Python-MCP name. -/
def docAlpha : Document :=
  { mcpServers := some [("alpha", eOld)], extra := [] }

/-- A two-entry source matrix for the federated installer. -/
def fedMatrix : List (String × Entry) := [("alpha", eNew), ("beta", eOld)]

/-- An action-outcome oracle under which only `alpha` succeeds. -/
def fedOutcome : String → Bool := fun s => decide (s = "alpha")

/-- The entry `configure_npx_mcp "npx" "home" "base" "memory" "pkg"` builds. -/
def c8Entry : Entry :=
  { command := "npx", args := ["-y", "pkg"],
    env := [("NODE_NO_WARNINGS", "1")], cwd := none }

/-- The document `install.py` saves when run on `docEmpty` with the one-name
catalog `[("memory", "pkg")]`. -/
def c8Doc : Document :=
  { mcpServers := some [("memory", c8Entry)], extra := [] }

/-! # Lemmas -/

theorem dictGet_dictSet {α : Type} (d : List (String × α)) (k : String) (v : α)
    (k' : String) :
    dictGet (dictSet d k v) k' = if k = k' then some v else dictGet d k' := by
  induction d with
  | nil => by_cases h : k = k' <;> simp [dictSet, dictGet, h]
  | cons p rest ih =>
      obtain ⟨a, w⟩ := p
      by_cases hak : a = k
      · subst hak
        by_cases h : a = k' <;> simp [dictSet, dictGet, h]
      · by_cases h : a = k'
        · subst h
          have hk : k ≠ a := fun hh => hak hh.symm
          simp [dictSet, dictGet, hak, hk]
        · simp [dictSet, dictGet, hak, h, ih]

theorem dictGet_dictDel {α : Type} (d : List (String × α)) (k k' : String) :
    dictGet (dictDel d k) k' = if k = k' then none else dictGet d k' := by
  induction d with
  | nil => simp [dictDel, dictGet]
  | cons p rest ih =>
      obtain ⟨a, w⟩ := p
      by_cases hak : a = k
      · subst hak
        by_cases h : a = k'
        · subst h; simp [dictDel, dictGet, ih]
        · simp [dictDel, dictGet, h, ih]
      · by_cases h : a = k'
        · subst h
          have hk : k ≠ a := fun hh => hak hh.symm
          simp [dictDel, dictGet, hak, hk]
        · simp [dictDel, dictGet, hak, h, ih]

theorem dictContains_dictSet {α : Type} (d : List (String × α)) (k : String)
    (v : α) (k' : String) :
    dictContains (dictSet d k v) k' = (decide (k = k') || dictContains d k') := by
  by_cases h : k = k' <;> simp [dictContains, dictGet_dictSet, h]

theorem dictContains_mono {α : Type} {d : List (String × α)} {k' : String}
    (k : String) (v : α) (h : dictContains d k' = true) :
    dictContains (dictSet d k v) k' = true := by
  simp [dictContains_dictSet, h]

theorem dictGet_eq_none_of_not_contains {α : Type} {d : List (String × α)}
    {k : String} (h : ¬ dictContains d k = true) : dictGet d k = none := by
  cases hval : dictGet d k with
  | none => rfl
  | some v => exact absurd (by simp [dictContains, hval]) h

theorem dictGet_isSome_of_contains {α : Type} {d : List (String × α)}
    {k : String} (h : dictContains d k = true) : ∃ v, dictGet d k = some v := by
  cases hval : dictGet d k with
  | none => simp [dictContains, hval] at h
  | some v => exact ⟨v, rfl⟩

theorem mem_dictKeys_iff {α : Type} (d : List (String × α)) (k : String) :
    k ∈ dictKeys d ↔ dictContains d k = true := by
  induction d with
  | nil => simp [dictKeys, dictContains, dictGet]
  | cons p rest ih =>
      obtain ⟨a, w⟩ := p
      by_cases h : a = k
      · subst h; simp [dictKeys, dictContains, dictGet]
      · have h' : k ≠ a := fun hh => h hh.symm
        simp [dictKeys, dictContains, dictGet, h, h', ih] at *
        exact ih

/-! ## Merge-loop lemmas -/

theorem mergeItems30_nil (acc : Registry × List String) :
    mergeItems30 [] acc = acc := rfl

theorem mergeItems30_cons (n : String) (e : Entry) (rest : List (String × Entry))
    (srv : Registry) (inst : List String) :
    mergeItems30 ((n, e) :: rest) (srv, inst) =
      if dictContains srv n = true then mergeItems30 rest (srv, inst)
      else mergeItems30 rest (dictSet srv n e, inst ++ [n]) := by
  by_cases hc : dictContains srv n = true <;> simp [mergeItems30, hc]

theorem mergeItems31_nil (acc : Registry × List String) :
    mergeItems31 [] acc = acc := rfl

theorem mergeItems31_cons (n : String) (e : Entry) (rest : List (String × Entry))
    (srv : Registry) (inst : List String) :
    mergeItems31 ((n, e) :: rest) (srv, inst) =
      if dictContains srv n = true then
        (if n ∈ PYTHON_MCPS then
          mergeItems31 rest (dictSet srv n e, if n ∈ inst then inst else inst ++ [n])
        else mergeItems31 rest (srv, inst))
      else mergeItems31 rest (dictSet srv n e, inst ++ [n]) := by
  by_cases hc : dictContains srv n = true <;> by_cases hpy : n ∈ PYTHON_MCPS <;>
    simp [mergeItems31, hc, hpy]

theorem mergeItems30_lookup (catalog : List (String × Entry))
    (srv : Registry) (inst : List String) (k : String) :
    dictGet (mergeItems30 catalog (srv, inst)).1 k =
      match dictGet srv k with
      | some v => some v
      | none => dictGet catalog k := by
  induction catalog generalizing srv inst with
  | nil =>
      rw [mergeItems30_nil]
      cases hval : dictGet srv k <;> simp [hval, dictGet]
  | cons nc rest ih =>
      obtain ⟨n, e⟩ := nc
      rw [mergeItems30_cons]
      by_cases hc : dictContains srv n = true
      · rw [if_pos hc, ih]
        by_cases hnk : n = k
        · subst hnk
          obtain ⟨v, hv⟩ := dictGet_isSome_of_contains hc
          simp [hv, dictGet]
        · cases hval : dictGet srv k <;> simp [hval, dictGet, hnk]
      · rw [if_neg hc, ih, dictGet_dictSet]
        by_cases hnk : n = k
        · subst hnk
          rw [dictGet_eq_none_of_not_contains hc]
          simp [dictGet]
        · simp only [hnk, if_false]
          cases hval : dictGet srv k <;> simp [hval, dictGet, hnk]

theorem mergeItems31_lookup_notPython (catalog : List (String × Entry))
    (srv : Registry) (inst : List String) (k : String) (hk : k ∉ PYTHON_MCPS) :
    dictGet (mergeItems31 catalog (srv, inst)).1 k =
      match dictGet srv k with
      | some v => some v
      | none => dictGet catalog k := by
  induction catalog generalizing srv inst with
  | nil =>
      rw [mergeItems31_nil]
      cases hval : dictGet srv k <;> simp [hval, dictGet]
  | cons nc rest ih =>
      obtain ⟨n, e⟩ := nc
      rw [mergeItems31_cons]
      by_cases hc : dictContains srv n = true
      · rw [if_pos hc]
        by_cases hpy : n ∈ PYTHON_MCPS
        · rw [if_pos hpy, ih, dictGet_dictSet]
          have hnk : n ≠ k := fun h => hk (h ▸ hpy)
          simp only [hnk, if_false]
          cases hval : dictGet srv k <;> simp [hval, dictGet, hnk]
        · rw [if_neg hpy, ih]
          by_cases hnk : n = k
          · subst hnk
            obtain ⟨v, hv⟩ := dictGet_isSome_of_contains hc
            simp [hv, dictGet]
          · cases hval : dictGet srv k <;> simp [hval, dictGet, hnk]
      · rw [if_neg hc, ih, dictGet_dictSet]
        by_cases hnk : n = k
        · subst hnk
          rw [dictGet_eq_none_of_not_contains hc]
          simp [dictGet]
        · simp only [hnk, if_false]
          cases hval : dictGet srv k <;> simp [hval, dictGet, hnk]

/-- No entry is ever deleted by the v3.1 merge loop: a name present in the
accumulator registry stays present. -/
theorem mergeItems31_no_delete (catalog : List (String × Entry))
    (srv : Registry) (inst : List String) (k : String)
    (h : dictContains srv k = true) :
    dictContains (mergeItems31 catalog (srv, inst)).1 k = true := by
  induction catalog generalizing srv inst with
  | nil => rw [mergeItems31_nil]; exact h
  | cons nc rest ih =>
      obtain ⟨n, e⟩ := nc
      rw [mergeItems31_cons]
      by_cases hc : dictContains srv n = true
      · rw [if_pos hc]
        by_cases hpy : n ∈ PYTHON_MCPS
        · rw [if_pos hpy]
          exact ih (dictSet srv n e) _ (dictContains_mono n e h)
        · rw [if_neg hpy]
          exact ih srv inst h
      · rw [if_neg hc]
        exact ih (dictSet srv n e) _ (dictContains_mono n e h)

/-- Every name the v3.1 merge loop appends to `installed_by_us` was either
already recorded, is a Python-MCP name, or was absent from the starting
registry. -/
theorem mergeItems31_installed_sources (catalog : List (String × Entry))
    (srv : Registry) (inst : List String) (k : String)
    (h : k ∈ (mergeItems31 catalog (srv, inst)).2) :
    k ∈ inst ∨ k ∈ PYTHON_MCPS ∨ dictContains srv k = false := by
  induction catalog generalizing srv inst with
  | nil =>
      rw [mergeItems31_nil] at h
      exact Or.inl h
  | cons nc rest ih =>
      obtain ⟨n, e⟩ := nc
      rw [mergeItems31_cons] at h
      by_cases hc : dictContains srv n = true
      · rw [if_pos hc] at h
        by_cases hpy : n ∈ PYTHON_MCPS
        · rw [if_pos hpy] at h
          have h' := ih (dictSet srv n e) (if n ∈ inst then inst else inst ++ [n]) h
          rcases h' with hmem | hmem | hmem
          · by_cases hni : n ∈ inst
            · rw [if_pos hni] at hmem
              exact Or.inl hmem
            · rw [if_neg hni] at hmem
              rcases List.mem_append.mp hmem with hmem | hmem
              · exact Or.inl hmem
              · rcases List.mem_singleton.mp hmem with rfl
                exact Or.inr (Or.inl hpy)
          · exact Or.inr (Or.inl hmem)
          · rw [dictContains_dictSet] at hmem
            simp only [Bool.or_eq_false_iff, decide_eq_false_iff_not] at hmem
            exact Or.inr (Or.inr hmem.2)
        · rw [if_neg hpy] at h
          exact ih srv inst h
      · rw [if_neg hc] at h
        have h' := ih (dictSet srv n e) (inst ++ [n]) h
        rcases h' with hmem | hmem | hmem
        · rcases List.mem_append.mp hmem with hmem | hmem
          · exact Or.inl hmem
          · rcases List.mem_singleton.mp hmem with rfl
            exact Or.inr (Or.inr (by simpa using hc))
        · exact Or.inr (Or.inl hmem)
        · rw [dictContains_dictSet] at hmem
          simp only [Bool.or_eq_false_iff, decide_eq_false_iff_not] at hmem
          exact Or.inr (Or.inr hmem.2)

/-! ## Removal-loop lemmas -/

theorem removeAll_lookup (names : List String) (srv : Registry) (k : String) :
    dictGet (removeAll names srv) k =
      if k ∈ names then none else dictGet srv k := by
  induction names generalizing srv with
  | nil => simp [removeAll]
  | cons n rest ih =>
      have hstep : removeAll (n :: rest) srv
          = removeAll rest (if dictContains srv n = true then dictDel srv n else srv) := by
        by_cases hc : dictContains srv n = true <;> simp [removeAll, hc]
      rw [hstep]
      by_cases hc : dictContains srv n = true
      · rw [if_pos hc, ih, dictGet_dictDel]
        by_cases hk : k ∈ rest
        · simp [hk]
        · by_cases hnk : n = k
          · simp [hk, hnk]
          · have hkn : k ≠ n := fun hh => hnk hh.symm
            simp [hk, hnk, hkn]
      · rw [if_neg hc, ih]
        have hnone := dictGet_eq_none_of_not_contains hc
        by_cases hk : k ∈ rest
        · simp [hk]
        · by_cases hnk : n = k
          · subst hnk; simp [hk, hnone]
          · have hkn : k ≠ n := fun hh => hnk hh.symm
            simp [hk, hkn]

/-! ## Lemmas on the `FederatedUnifiedInstaller` loops -/

theorem installLoopAux (outcome : String → Bool) (matrix : List (String × Entry))
    (a b : List String) :
    matrix.foldl
      (fun acc p =>
        if outcome p.1 then (acc.1 ++ [p.1], acc.2) else (acc.1, acc.2 ++ [p.1]))
      (a, b)
      = (a ++ (matrix.filter (fun p => outcome p.1)).map Prod.fst,
         b ++ (matrix.filter (fun p => ! outcome p.1)).map Prod.fst) := by
  induction matrix generalizing a b with
  | nil => simp
  | cons p rest ih =>
      by_cases h : outcome p.1 = true
      · simp only [List.foldl_cons, h, if_true]
        rw [ih]
        simp [List.filter_cons, h]
      · simp only [List.foldl_cons, h, if_false]
        rw [ih]
        simp [List.filter_cons, h]

theorem installLoop_eq (outcome : String → Bool) (matrix : List (String × Entry)) :
    installLoop outcome matrix
      = ((matrix.filter (fun p => outcome p.1)).map Prod.fst,
         (matrix.filter (fun p => ! outcome p.1)).map Prod.fst) := by
  simpa [installLoop] using installLoopAux outcome matrix [] []

theorem mem_installed_of_dictGet (outcome : String → Bool)
    (matrix : List (String × Entry)) (k : String) (e : Entry)
    (hk : dictGet matrix k = some e) (hok : outcome k = true) :
    k ∈ (matrix.filter (fun p => outcome p.1)).map Prod.fst := by
  induction matrix with
  | nil => simp [dictGet] at hk
  | cons p rest ih =>
      obtain ⟨a, w⟩ := p
      by_cases ha : a = k
      · subst ha
        simp [List.filter_cons, hok]
      · have hk' : dictGet rest k = some e := by simpa [dictGet, ha] using hk
        by_cases hpa : outcome a = true
        · simp only [List.filter_cons, hpa, if_true, List.map_cons, List.mem_cons]
          exact Or.inr (ih hk')
        · simp only [List.filter_cons, hpa, if_false]
          exact ih hk'

theorem not_mem_installed_of_failed (outcome : String → Bool)
    (matrix : List (String × Entry)) (f : String) (hf : outcome f = false) :
    f ∉ (matrix.filter (fun p => outcome p.1)).map Prod.fst := by
  intro hmem
  obtain ⟨p, hp, hpf⟩ := List.mem_map.mp hmem
  have hpred := (List.mem_filter.mp hp).2
  rw [hpf] at hpred
  rw [hf] at hpred
  cases hpred

theorem writeCfgFold_cons (matrix : List (String × Entry)) (n : String)
    (rest : List String) (c : Document) :
    writeCfgFold matrix (n :: rest) c
      = writeCfgFold matrix rest
          (match dictGet matrix n with
           | some e => { c with mcpServers := some (dictSet (c.mcpServers.getD []) n e) }
           | none => c) := by
  cases hm : dictGet matrix n <;> simp [writeCfgFold, hm]

theorem writeCfgFold_not_mem (matrix : List (String × Entry))
    (installed : List String) (c : Document) (k : String) (hk : k ∉ installed) :
    dictGet ((writeCfgFold matrix installed c).mcpServers.getD []) k
      = dictGet (c.mcpServers.getD []) k := by
  induction installed generalizing c with
  | nil => simp [writeCfgFold]
  | cons n rest ih =>
      have hkr : k ∉ rest := fun hm => hk (List.mem_cons_of_mem _ hm)
      have hkn : n ≠ k := fun hh => hk (hh ▸ List.mem_cons_self n rest)
      rw [writeCfgFold_cons]
      cases hm : dictGet matrix n with
      | none => exact ih c hkr
      | some e =>
          rw [ih _ hkr]
          simp [dictGet_dictSet, hkn]

theorem writeCfgFold_mem (matrix : List (String × Entry))
    (installed : List String) (c : Document) (k : String) (e : Entry)
    (hmx : dictGet matrix k = some e) (hk : k ∈ installed) :
    dictGet ((writeCfgFold matrix installed c).mcpServers.getD []) k = some e := by
  induction installed generalizing c with
  | nil => cases hk
  | cons n rest ih =>
      rw [writeCfgFold_cons]
      by_cases hr : k ∈ rest
      · cases hm : dictGet matrix n <;> exact ih _ hr
      · have hn : n = k := by
          rcases List.mem_cons.mp hk with h | h
          · exact h.symm
          · exact absurd h hr
        subst hn
        rw [hmx, writeCfgFold_not_mem matrix rest _ n hr]
        simp [dictGet_dictSet]

/-! ## Key-preservation lemmas for the install pipelines -/

theorem configureFold_isSome (npxCmd home mcpBaseDir : String)
    (ps : List (String × String)) (c : Document) (h : c.mcpServers.isSome = true) :
    ((ps.foldl (fun c p => configure_npx_mcp npxCmd home mcpBaseDir p.1 p.2 c) c).mcpServers).isSome
      = true := by
  induction ps generalizing c with
  | nil => simpa using h
  | cons p rest ih =>
      simp only [List.foldl_cons]
      exact ih _ (by simp [configure_npx_mcp])

theorem localFold_isSome (locals : List (String × Entry)) (c : Document)
    (h : c.mcpServers.isSome = true) :
    ((locals.foldl
        (fun c p => { c with mcpServers := some (dictSet (c.mcpServers.getD []) p.1 p.2) })
        c).mcpServers).isSome = true := by
  induction locals generalizing c with
  | nil => simpa using h
  | cons p rest ih =>
      simp only [List.foldl_cons]
      exact ih _ (by simp)

/-! # Claims -/

/-- C1 (counterexample): the claim "every entry name present in the existing
document keeps its exact prior value under the merge" is false:
`install_v3.1_backup.py`'s `merge_configs` overwrites the present entry
`converse-enhanced` (a name in its `PYTHON_MCPS` set) with the catalog
value. -/
theorem c1_counterexample : ¬ claimC1Statement := by
  intro h
  exact absurd
    (h.2.1 catalogConverse docConverse "converse-enhanced" eOld (by decide))
    (by decide)

/-- C1 (amended): the merge never deletes an entry and differs from the
existing document only at catalog names; an existing entry keeps its exact
prior value unless its name is in v3.1's `PYTHON_MCPS` set (overwritten by
v3.1's `merge_configs`) or is the name being configured by `install.py`'s
`configure_npx_mcp` (which always overwrites); v3.0's `merge_configs` is
fully non-destructive for all inputs, including an absent starting
document, and non-registry top-level keys pass through unmodified. -/
theorem c1_nondestructive_amended
    (catalog : List (String × Entry)) (d : Document)
    (npxCmd home mcpBaseDir name package : String) :
    (∀ k : String,
       dictGet ((merge_configs30 catalog (some d)).1.mcpServers.getD []) k =
         match dictGet (d.mcpServers.getD []) k with
         | some v => some v
         | none => dictGet catalog k) ∧
    ((merge_configs30 catalog (some d)).1.extra = d.extra) ∧
    (∀ k : String,
       dictGet ((merge_configs30 catalog none).1.mcpServers.getD []) k
         = dictGet catalog k) ∧
    (∀ k : String, k ∉ PYTHON_MCPS →
       dictGet ((merge_configs31 catalog (some d)).1.mcpServers.getD []) k =
         match dictGet (d.mcpServers.getD []) k with
         | some v => some v
         | none => dictGet catalog k) ∧
    ((merge_configs31 catalog (some d)).1.extra = d.extra) ∧
    (∀ j : String, dictContains (d.mcpServers.getD []) j = true →
       dictContains ((merge_configs31 catalog (some d)).1.mcpServers.getD []) j = true) ∧
    (∀ k : String, k ≠ name →
       dictGet ((configure_npx_mcp npxCmd home mcpBaseDir name package d).mcpServers.getD []) k
         = dictGet (d.mcpServers.getD []) k) ∧
    ((dictGet ((configure_npx_mcp npxCmd home mcpBaseDir name package d).mcpServers.getD [])
        name).isSome = true) := by
  refine ⟨?_, ?_, ?_, ?_, ?_, ?_, ?_, ?_⟩
  · intro k
    simp only [merge_configs30, Option.getD_some]
    exact mergeItems30_lookup catalog (d.mcpServers.getD []) [] k
  · simp [merge_configs30]
  · intro k
    simp only [merge_configs30, Option.getD_some]
    have := mergeItems30_lookup catalog [] [] k
    simpa [dictGet] using this
  · intro k hkpy
    simp only [merge_configs31, Option.getD_some]
    exact mergeItems31_lookup_notPython catalog (d.mcpServers.getD []) [] k hkpy
  · simp [merge_configs31]
  · intro j hj
    simp only [merge_configs31, Option.getD_some]
    exact mergeItems31_no_delete catalog (d.mcpServers.getD []) [] j hj
  · intro k hkname
    have hname : name ≠ k := fun hh => hkname hh.symm
    simp only [configure_npx_mcp, Option.getD_some]
    rw [dictGet_dictSet]
    simp [hname]
  · simp only [configure_npx_mcp, Option.getD_some]
    rw [dictGet_dictSet]
    simp

/-- C1 (witness): the amended statement applied at a concrete input — in
particular v3.0's preservation at the Python-MCP name `converse-enhanced`
itself, the keys that distinguish v3.0 from v3.1. -/
theorem c1_nondestructive_witness :
    (dictGet ((merge_configs30 catalogConverse (some docConverse)).1.mcpServers.getD [])
        "converse-enhanced" =
      match dictGet (docConverse.mcpServers.getD []) "converse-enhanced" with
      | some v => some v
      | none => dictGet catalogConverse "converse-enhanced") ∧
    ("web-frontend" ∉ PYTHON_MCPS) ∧
    (dictGet ((merge_configs31 catalogConverse (some docConverse)).1.mcpServers.getD [])
        "web-frontend" =
      match dictGet (docConverse.mcpServers.getD []) "web-frontend" with
      | some v => some v
      | none => dictGet catalogConverse "web-frontend") :=
  ⟨(c1_nondestructive_amended catalogConverse docConverse
      "npx" "home" "base" "memory" "pkg").1 "converse-enhanced",
   by decide,
   (c1_nondestructive_amended catalogConverse docConverse
      "npx" "home" "base" "memory" "pkg").2.2.2.1 "web-frontend" (by decide)⟩

/-- C2 (counterexample): the claim "every key in the manifest's
`already_existed` list is left with its value unchanged" fails for a
manifest that records the same name in both lists (which
`install_v3.1_backup.py` produces for pre-existing Python-MCP names): the
key is removed. -/
theorem c2_counterexample : ¬ claimC2Statement := by
  intro h
  exact absurd
    ((h { installed_by_us := ["a"], already_existed := ["a"] } [("a", eOld)] "a").2
      (by decide))
    (by decide)

/-- C2 (amended): a manifest-driven uninstall produces exactly the registry
minus `installed_by_us ∩ keys(R)` — every key not in `installed_by_us`
keeps its exact value, in particular every `already_existed` key that is not
also in `installed_by_us` (a key recorded in both lists is removed). -/
theorem c2_uninstall_exactness (m : Manifest) (srv : Registry)
    (extra : List (String × String)) (force : Bool) (k : String)
    (hpre : k ∈ m.already_existed) (hnotinst : k ∉ m.installed_by_us) :
    (remove_our_mcps (some m) force (some { mcpServers := some srv, extra := extra })
       = (true,
          some { mcpServers := some (removeAll m.installed_by_us srv), extra := extra },
          [RunOp.save { mcpServers := some (removeAll m.installed_by_us srv), extra := extra }])) ∧
    (∀ j : String, dictGet (removeAll m.installed_by_us srv) j
       = if j ∈ m.installed_by_us then none else dictGet srv j) ∧
    (dictGet (removeAll m.installed_by_us srv) k = dictGet srv k) := by
  refine ⟨rfl, fun j => removeAll_lookup _ _ j, ?_⟩
  rw [removeAll_lookup]
  simp [hnotinst]

/-- C2 (witness): the amended statement applied at a concrete input. -/
theorem c2_uninstall_exactness_witness :
    ("b" ∈ ({ installed_by_us := ["a"], already_existed := ["b"] } : Manifest).already_existed) ∧
    ("b" ∉ ({ installed_by_us := ["a"], already_existed := ["b"] } : Manifest).installed_by_us) ∧
    (dictGet (removeAll ({ installed_by_us := ["a"], already_existed := ["b"] } : Manifest).installed_by_us
        [("a", eOld), ("b", eNew)]) "b"
      = dictGet [("a", eOld), ("b", eNew)] "b") :=
  ⟨by decide, by decide,
   (c2_uninstall_exactness { installed_by_us := ["a"], already_existed := ["b"] }
      [("a", eOld), ("b", eNew)] [] false "b" (by decide) (by decide)).2.2⟩

/-- C3 (counterexample): manifest disjointness fails: when a Python-MCP
name (`converse-enhanced`) already exists in the registry,
`install_v3.1_backup.py` records it in `already_existed` (all existing keys)
and — through the overwrite branch of `merge_configs` — also in
`installed_by_us`. -/
theorem c3_counterexample : ¬ claimC3Statement := by
  intro h
  exact h catalogConverse (.valid docConverse) "converse-enhanced"
    (by decide) (by decide)

/-- C3 (amended): the produced manifest's `already_existed` and
`installed_by_us` lists are disjoint provided no pre-existing registry name
is in the installer's `PYTHON_MCPS` set (a pre-existing Python-MCP name is
recorded in both lists). -/
theorem c3_manifest_disjoint (catalog : List (String × Entry)) (fs : FileState)
    (hpy : ∀ j, j ∈ (producedManifest31 catalog fs).already_existed → j ∉ PYTHON_MCPS)
    (k : String) (hk : k ∈ (producedManifest31 catalog fs).already_existed) :
    k ∉ (producedManifest31 catalog fs).installed_by_us := by
  intro hinst
  cases fs with
  | absent => simp [producedManifest31, read_existing_config31] at hk
  | malformed => simp [producedManifest31, read_existing_config31] at hk
  | valid d =>
      cases hsrv : d.mcpServers with
      | none =>
          rw [show (producedManifest31 catalog (.valid d)).already_existed = [] by
            simp [producedManifest31, read_existing_config31, hsrv]] at hk
          cases hk
      | some srv =>
          have hk' : k ∈ dictKeys srv := by
            simpa [producedManifest31, read_existing_config31, hsrv] using hk
          have hcont : dictContains srv k = true := (mem_dictKeys_iff srv k).mp hk'
          have hinst' : k ∈ (mergeItems31 catalog (srv, [])).2 := by
            simpa [producedManifest31, read_existing_config31, merge_configs31, hsrv]
              using hinst
          rcases mergeItems31_installed_sources catalog srv [] k hinst' with hm | hm | hm
          · cases hm
          · exact hpy k hk hm
          · rw [hcont] at hm; cases hm
/-- C3 (witness): the amended statement applied at a concrete input. -/
theorem c3_manifest_disjoint_witness :
    (∀ j, j ∈ (producedManifest31 catalogConverse (.valid docAlpha)).already_existed →
       j ∉ PYTHON_MCPS) ∧
    ("alpha" ∈ (producedManifest31 catalogConverse (.valid docAlpha)).already_existed) ∧
    ("alpha" ∉ (producedManifest31 catalogConverse (.valid docAlpha)).installed_by_us) :=
  ⟨by decide, by decide,
   c3_manifest_disjoint catalogConverse (.valid docAlpha) (by decide) "alpha" (by decide)⟩

/-- C4 (counterexample): "the hardcoded-reference-set fallback removal is
taken only when the explicit force override is supplied" fails for
`uninstaller-clean.py`: with no manifest (and no force flag existing at
all), `remove_federation_mcps` falls back to removing the hardcoded
federation list, deleting the `memory` entry. -/
theorem c4_counterexample : ¬ claimC4Statement := by
  intro h
  exact absurd (h.2 (some docMemory)) (by decide)

/-- C4 (amended): `uninstall.py` refuses a run with no manifest and no
`--force` (exit code 1, registry untouched, nothing written), uses the
hardcoded `FORCE_MCPS` list exactly when forced, and removes exactly
`installed_by_us` when a manifest is present; `uninstaller-clean.py`,
however, takes the hardcoded fallback automatically whenever its manifest is
absent. -/
theorem c4_no_manifest_refusal (confirm backupOk force : Bool)
    (file : Option Document) (srv : Registry) (extra : List (String × String))
    (m : Manifest) :
    (uninstallRun none false confirm backupOk file = (1, file, [])) ∧
    (remove_our_mcps none true (some { mcpServers := some srv, extra := extra })
       = (true, some { mcpServers := some (removeAll FORCE_MCPS srv), extra := extra },
          [RunOp.save { mcpServers := some (removeAll FORCE_MCPS srv), extra := extra }])) ∧
    (remove_our_mcps none false (some { mcpServers := some srv, extra := extra })
       = (false, some { mcpServers := some srv, extra := extra }, [])) ∧
    (remove_our_mcps (some m) force (some { mcpServers := some srv, extra := extra })
       = (true, some { mcpServers := some (removeAll m.installed_by_us srv), extra := extra },
          [RunOp.save { mcpServers := some (removeAll m.installed_by_us srv), extra := extra }])) := by
  exact ⟨by simp [uninstallRun], rfl, rfl, rfl⟩

/-- C5: `install_v3.1_backup.py` on a registry file that exists but is not
parseable: `read_existing_config` swallows the parse error and returns
`None`, so the run takes no backup, merges into an empty document, saves it
over the malformed file, and exits 0 — the prior contents are silently
replaced instead of failing fatally. -/
theorem c5_malformed_config_replaced :
    run31 true true true catalogConverse FileState.malformed
      = (0,
         FileState.valid { mcpServers := some [("converse-enhanced", eNew)], extra := [] },
         [RunOp.save { mcpServers := some [("converse-enhanced", eNew)], extra := [] },
          RunOp.manifestWrite [] ["converse-enhanced"]]) := by
  decide

/-- C6 (counterexample): the acquisition runner does not behave as an
up-to-3-attempt exponential-backoff loop for any base delay: on an outcome
where the first attempt fails (retryably, i.e. a further attempt would
succeed), `install_npm_mcp` fails immediately while the retry loop would
succeed on the second attempt. -/
theorem c6_counterexample : ¬ claimC6Statement := by
  rintro ⟨base, h⟩
  have h1 := congrArg (fun t => t.1) (h (fun i => decide (1 ≤ i)))
  simp [install_npm_mcp, retrySpec, retrySpecLoop] at h1

/-- C6 (amended): each acquisition action is attempted exactly once (zero
times when already installed/cloned); any failure marks the entry failed
immediately, with no retries and no backoff waits. -/
theorem c6_single_attempt (outcome cloneOutcome : Nat → Bool) (depsOk : Bool) :
    install_npm_mcp false outcome = (outcome 0, 1, []) ∧
    install_npm_mcp true outcome = (true, 0, []) ∧
    install_python_mcp31 true cloneOutcome depsOk = (depsOk, 0, []) ∧
    install_python_mcp31 false cloneOutcome depsOk
      = (if cloneOutcome 0 then (depsOk, 1, []) else (false, 1, [])) :=
  ⟨rfl, rfl, rfl, rfl⟩

/-- C7 (counterexample): "the persisted registry contains the successful
entries" fails when the prior registry file is unparseable:
`write_configuration` catches the parse error and returns `False`, which
`install` ignores, so nothing is persisted — the registry file never
becomes a valid document holding the successful entries, yet the run
completes with its exit code reflecting only the action results. -/
theorem c7_counterexample : ¬ claimC7Statement := by
  intro h
  obtain ⟨d', hd', -⟩ := h fedOutcome fedMatrix .malformed "alpha" eNew
    (by decide) (by decide) ⟨"beta", by decide, by decide⟩
  have hm : (installFed true true fedOutcome fedMatrix FileState.malformed).2.1
      = FileState.malformed := by decide
  rw [hm] at hd'
  cases hd'

/-- C7 (amended): partial-failure semantics of
`FederatedUnifiedInstaller.install`: every matrix entry is processed
(successes and failures partition the matrix in order) and the exit code is
0 exactly when every entry's action succeeded, for any prior file state.
When the prior registry file is absent or parseable, the persisted registry
contains every successful entry with its catalog value, and every failed
name keeps its prior value (absent names stay absent); when the prior file
is unparseable, the config write is skipped and the file is left unchanged
while the exit code still reflects only the action results. -/
theorem c7_partial_failure (outcome : String → Bool) (matrix : List (String × Entry))
    (d : Document) (k f : String) (e : Entry)
    (hk : dictGet matrix k = some e) (hok : outcome k = true)
    (hf : outcome f = false) :
    ((installFed true true outcome matrix (.valid d)).2.2.1
        = (matrix.filter (fun p => outcome p.1)).map Prod.fst) ∧
    ((installFed true true outcome matrix (.valid d)).2.2.2
        = (matrix.filter (fun p => ! outcome p.1)).map Prod.fst) ∧
    ((installFed true true outcome matrix (.valid d)).2.1
        = FileState.valid (writeCfgFold matrix
            ((matrix.filter (fun p => outcome p.1)).map Prod.fst)
            { d with mcpServers := some (d.mcpServers.getD []) })) ∧
    (dictGet ((writeCfgFold matrix ((matrix.filter (fun p => outcome p.1)).map Prod.fst)
        { d with mcpServers := some (d.mcpServers.getD []) }).mcpServers.getD []) k
      = some e) ∧
    (dictGet ((writeCfgFold matrix ((matrix.filter (fun p => outcome p.1)).map Prod.fst)
        { d with mcpServers := some (d.mcpServers.getD []) }).mcpServers.getD []) f
      = dictGet (d.mcpServers.getD []) f) ∧
    ((installFed true true outcome matrix .malformed).2.1 = FileState.malformed) ∧
    (mainFedExit true true outcome matrix (.valid d) = 0 ↔
      ∀ p ∈ matrix, outcome p.1 = true) ∧
    (mainFedExit true true outcome matrix .malformed = 0 ↔
      ∀ p ∈ matrix, outcome p.1 = true) := by
  have hloop := installLoop_eq outcome matrix
  have hinst : installFed true true outcome matrix (.valid d)
      = ((((matrix.filter (fun p => ! outcome p.1)).map Prod.fst).isEmpty),
         FileState.valid (writeCfgFold matrix
            ((matrix.filter (fun p => outcome p.1)).map Prod.fst)
            { d with mcpServers := some (d.mcpServers.getD []) }),
         (matrix.filter (fun p => outcome p.1)).map Prod.fst,
         (matrix.filter (fun p => ! outcome p.1)).map Prod.fst) := by
    simp [installFed, write_configuration, hloop]
  have hinstMal : installFed true true outcome matrix .malformed
      = ((((matrix.filter (fun p => ! outcome p.1)).map Prod.fst).isEmpty),
         FileState.malformed,
         (matrix.filter (fun p => outcome p.1)).map Prod.fst,
         (matrix.filter (fun p => ! outcome p.1)).map Prod.fst) := by
    simp [installFed, write_configuration, hloop]
  have hiff : (((matrix.filter (fun p => ! outcome p.1)).map Prod.fst).isEmpty = true)
      ↔ ∀ p ∈ matrix, outcome p.1 = true := by
    rw [List.isEmpty_iff, List.map_eq_nil_iff, List.filter_eq_nil_iff]
    constructor
    · intro hh p hp
      have := hh p hp
      simpa using this
    · intro hh p hp
      simp [hh p hp]
  refine ⟨by rw [hinst], by rw [hinst], by rw [hinst], ?_, ?_, by rw [hinstMal], ?_, ?_⟩
  · exact writeCfgFold_mem matrix _ _ k e hk
      (mem_installed_of_dictGet outcome matrix k e hk hok)
  · rw [writeCfgFold_not_mem matrix _ _ f
      (not_mem_installed_of_failed outcome matrix f hf)]
    rfl
  · have hmain : mainFedExit true true outcome matrix (.valid d)
        = if ((matrix.filter (fun p => ! outcome p.1)).map Prod.fst).isEmpty = true
          then 0 else 1 := by
      simp only [mainFedExit]
      rw [hinst]
    rw [hmain]
    by_cases hemp : ((matrix.filter (fun p => ! outcome p.1)).map Prod.fst).isEmpty = true
    · rw [if_pos hemp]
      exact iff_of_true rfl (hiff.mp hemp)
    · rw [if_neg hemp]
      exact iff_of_false (by decide) (fun hall => hemp (hiff.mpr hall))
  · have hmain : mainFedExit true true outcome matrix .malformed
        = if ((matrix.filter (fun p => ! outcome p.1)).map Prod.fst).isEmpty = true
          then 0 else 1 := by
      simp only [mainFedExit]
      rw [hinstMal]
    rw [hmain]
    by_cases hemp : ((matrix.filter (fun p => ! outcome p.1)).map Prod.fst).isEmpty = true
    · rw [if_pos hemp]
      exact iff_of_true rfl (hiff.mp hemp)
    · rw [if_neg hemp]
      exact iff_of_false (by decide) (fun hall => hemp (hiff.mpr hall))

/-- C7 (witness): the amended statement applied at a concrete input where
`alpha` succeeds and `beta` fails. -/
theorem c7_partial_failure_witness :
    (dictGet fedMatrix "alpha" = some eNew) ∧ (fedOutcome "alpha" = true) ∧
    (fedOutcome "beta" = false) ∧
    (dictGet ((writeCfgFold fedMatrix
        ((fedMatrix.filter (fun p => fedOutcome p.1)).map Prod.fst)
        { docEmpty with mcpServers := some (docEmpty.mcpServers.getD []) }).mcpServers.getD [])
        "beta" = dictGet (docEmpty.mcpServers.getD []) "beta") :=
  ⟨by decide, by decide, by decide,
   (c7_partial_failure fedOutcome fedMatrix docEmpty "alpha" "beta" eNew
      (by decide) (by decide) (by decide)).2.2.2.2.1⟩

/-- C8 (counterexample): "every run that mutates the registry snapshots it
first" fails for `install.py` (v3.3): a run on an existing registry saves a
changed document while performing no backup operation at all. -/
theorem c8_counterexample : ¬ claimC8Statement := by
  intro h
  exact absurd
    (h "npx" "home" "base" [("memory", "pkg")] [] (.valid docEmpty) c8Doc
      [RunOp.save c8Doc] (by decide) (by decide))
    (by decide)

/-- C8 (amended): `uninstall.py` snapshots before removal whenever the
registry file exists and aborts (exit 1, file unchanged, nothing written)
when the snapshot fails; `install_v3.1_backup.py` snapshots before the
merge — and aborts on snapshot failure — exactly when the loaded document
is truthy (non-empty): for a registry file holding the empty object `{}`
it takes no snapshot yet still merges and saves (regardless of whether a
backup would have succeeded), it takes none when the file fails to parse,
and `install.py` (v3.3) saves with no snapshot at all. -/
theorem c8_backup_before_mutation (m : Option Manifest) (force : Bool)
    (d : Document) (catalog : List (String × Entry)) (saveOk backupOk : Bool)
    (hmf : m.isSome = true ∨ force = true) (htr : docTruthy (some d) = true) :
    (uninstallRun m force true false (some d) = (1, some d, [])) ∧
    (run31 true false saveOk catalog (.valid d) = (1, .valid d, [])) ∧
    (run31 true true true catalog (.valid d)
       = (0, .valid (merge_configs31 catalog (some d)).1,
          [RunOp.backup, RunOp.save (merge_configs31 catalog (some d)).1,
           RunOp.manifestWrite (read_existing_config31 (.valid d)).2
             (merge_configs31 catalog (some d)).2])) ∧
    (run31 true backupOk true catalog (.valid docBraces)
       = (0, .valid (merge_configs31 catalog (some docBraces)).1,
          [RunOp.save (merge_configs31 catalog (some docBraces)).1,
           RunOp.manifestWrite [] (merge_configs31 catalog (some docBraces)).2])) := by
  refine ⟨?_, ?_, ?_, ?_⟩
  · have hcond : ¬ ((m.isNone = true) ∧ ¬ force = true) := by
      rintro ⟨h1, h2⟩
      rcases hmf with hm | hfo
      · rw [Option.isNone_iff_eq_none] at h1
        rw [h1] at hm
        cases hm
      · exact h2 hfo
    simp [uninstallRun, hcond]
  · simp [run31, read_existing_config31, htr]
  · simp [run31, read_existing_config31, htr]
  · simp [run31, read_existing_config31, docTruthy, docBraces]

/-- C8 (witness): the amended statement applied at a concrete input. -/
theorem c8_backup_before_mutation_witness :
    ((some ({ installed_by_us := [], already_existed := [] } : Manifest)).isSome = true ∨
       (false = true)) ∧
    (docTruthy (some docMemory) = true) ∧
    (uninstallRun (some { installed_by_us := [], already_existed := [] }) false true false
        (some docMemory) = (1, some docMemory, [])) :=
  ⟨Or.inl rfl, by decide,
   (c8_backup_before_mutation (some { installed_by_us := [], already_existed := [] })
      false docMemory [] true true (Or.inl rfl) (by decide)).1⟩

/-- C9 (counterexample): `save_config` is not an atomic
temp-write-then-rename: its operation sequence contains no rename at all. -/
theorem c9_counterexample : ¬ claimC9Statement := by
  intro h
  obtain ⟨tmp, hne, hmem, hw⟩ := h "cfgdir" "cfgpath" docMemory
  simp [save_config_ops] at hmem

/-- C9 (amended): `save_config` creates the config directory and then
writes the serialized document directly into the registry file in place —
no temporary location and no rename — so a crash mid-write can leave a
truncated document. -/
theorem c9_save_in_place (configDir configPath : String) (d : Document) :
    (save_config_ops configDir configPath d
       = [FsOp.mkdirp configDir, FsOp.writeFile configPath d]) ∧
    (∀ src target : String,
       FsOp.renameFile src target ∉ save_config_ops configDir configPath d) ∧
    (FsOp.writeFile configPath d ∈ save_config_ops configDir configPath d) := by
  refine ⟨rfl, ?_, by simp [save_config_ops]⟩
  intro src target hmem
  simp [save_config_ops] at hmem

/-- C10: every document an install run persists has the `mcpServers` key
(`install.py` inserts an empty mapping before merging, and so does v3.1's
`merge_configs`), and the uninstaller only deletes names inside an existing
`mcpServers` mapping: when the key is absent it returns without persisting
anything, and every document it does save still has the key. -/
theorem c10_mcpservers_key_invariant
    (npxCmd home mcpBaseDir : String) (pkgs : List (String × String))
    (locals : List (String × Entry)) (fs : FileState) (d : Document)
    (ops : List RunOp) (catalog : List (String × Entry)) (existing : Option Document)
    (m : Option Manifest) (force : Bool) (extra : List (String × String))
    (file : Option Document) (d' : Document)
    (hinst : install_all_mcps33 npxCmd home mcpBaseDir pkgs locals fs = some (d, ops)) :
    (d.mcpServers.isSome = true) ∧
    ((merge_configs31 catalog existing).1.mcpServers.isSome = true) ∧
    (remove_our_mcps m force (some { mcpServers := none, extra := extra })
       = (true, some { mcpServers := none, extra := extra }, [])) ∧
    (RunOp.save d' ∈ (remove_our_mcps m force file).2.2 → d'.mcpServers.isSome = true) := by
  refine ⟨?_, ?_, rfl, ?_⟩
  · cases fs with
    | malformed => simp [install_all_mcps33, installEnsure] at hinst
    | absent =>
        have h0 : ({ mcpServers := some [], extra := [] } : Document).mcpServers.isSome
            = true := rfl
        have h2 := localFold_isSome locals _
          (configureFold_isSome npxCmd home mcpBaseDir pkgs _ h0)
        simp only [install_all_mcps33, installEnsure, Option.some.injEq,
          Prod.mk.injEq] at hinst
        rw [← hinst.1]
        exact h2
    | valid dv =>
        have h0 : ({ dv with mcpServers := some (dv.mcpServers.getD []) } : Document).mcpServers.isSome
            = true := rfl
        have h2 := localFold_isSome locals _
          (configureFold_isSome npxCmd home mcpBaseDir pkgs _ h0)
        simp only [install_all_mcps33, installEnsure, Option.some.injEq,
          Prod.mk.injEq] at hinst
        rw [← hinst.1]
        exact h2
  · cases existing with
    | none => rfl
    | some c => rfl
  · intro hsave
    rcases file with _ | config
    · simp [remove_our_mcps] at hsave
    · rcases hms : config.mcpServers with _ | srv
      · simp [remove_our_mcps, hms] at hsave
      · rcases m with _ | mm
        · by_cases hforce : force = true
          · simp only [remove_our_mcps, hms, hforce, if_true, List.mem_singleton,
              RunOp.save.injEq] at hsave
            rw [hsave]
            rfl
          · simp [remove_our_mcps, hms, hforce] at hsave
        · simp only [remove_our_mcps, hms, List.mem_singleton,
            RunOp.save.injEq] at hsave
          rw [hsave]
          rfl

/-- C10 (witness): the statement applied at a concrete input. -/
theorem c10_mcpservers_key_invariant_witness :
    (install_all_mcps33 "n" "h" "b" [] [] FileState.absent
       = some (docEmpty, [RunOp.save docEmpty])) ∧
    (docEmpty.mcpServers.isSome = true) :=
  ⟨by decide,
   (c10_mcpservers_key_invariant "n" "h" "b" [] [] .absent docEmpty
      [RunOp.save docEmpty] [] none none false [] none docEmpty (by decide)).1⟩

end MCPFed
